import Mathlib

/-!
Verification development for the Aurora Pro agent orchestration substrate.

Shallow embedding of the Python sources under `aurora_pro/`:
pure logic is translated to Lean functions; stateful methods become
explicit state-passing functions; OS effects (subprocess results,
provider HTTP calls, pyautogui invocations, clocks) are abstracted as
explicit input parameters (oracles), so that every code path of the
embedded functions mirrors a code path of the source.

The file is organised as: all definitions first, then all lemmas and
theorems.
-/

namespace Aurora

/-- Model of a Python runtime value as far as the cache and config layers
inspect one: the distinguished `None`, or an opaque payload.  Only the
`is not None` test and equality are ever performed by the embedded code. -/
inductive PyVal where
  | vnone : PyVal
  | vint : Int → PyVal
  | vstr : String → PyVal
  deriving Repr, DecidableEq

/-- Python `collections.deque(maxlen := n)` append: keep the last `n` elements. -/
def pushBounded (n : Nat) (xs : List α) (x : α) : List α :=
  let ys := xs ++ [x]
  ys.drop (ys.length - n)

/-- The last `n` elements of a list (what a `deque(maxlen := n)` retains). -/
def lastN (n : Nat) (l : List α) : List α :=
  l.drop (l.length - n)

/-- First-match association-list lookup (Python `dict.get` on our ordered model). -/
def assocLookup (key : String) : List (String × α) → Option α
  | [] => none
  | (k, v) :: rest => if k = key then some v else assocLookup key rest

/-- Python `dict` assignment on an ordered association list: replace the value
in place when the key exists (position kept), append otherwise. -/
def assocInsert (key : String) (v : α) : List (String × α) → List (String × α)
  | [] => [(key, v)]
  | (k, w) :: rest =>
      if k = key then (k, v) :: rest else (k, w) :: assocInsert key v rest

/-- Whether the first character list is a prefix of the second. -/
def isPrefixList : List Char → List Char → Bool
  | [], _ => true
  | _ :: _, [] => false
  | p :: ps, c :: cs => p = c && isPrefixList ps cs

/-- Whether `pat` occurs as a contiguous subsequence. -/
def subOccurs (pat : List Char) : List Char → Bool
  | [] => isPrefixList pat []
  | c :: rest => isPrefixList pat (c :: rest) || subOccurs pat rest

/-- Python substring test `pat in s`. -/
def containsSub (s pat : String) : Bool :=
  subOccurs pat.data s.data

/-- Python `str.lower()`. -/
def pyLower (s : String) : String :=
  ⟨s.data.map Char.toLower⟩

/-! ## Policy gate and input-control agent (`mouse_keyboard_agent.py`) -/

namespace MouseKeyboardAgent

/-- Parsed content of `config/operator_enabled.yaml`.  Each field is optional,
mirroring `dict.get` with a default on the Python side.  A missing or
unparseable file is modelled as `Option.none` at the call site of
`_check_authorization`. -/
structure PolicyConfig where
  operator_enabled : Option Bool
  features : Option (List (String × Bool))
  deriving Repr, DecidableEq

/-- `features.get(name, False)` on the feature mapping. -/
def featureFlag (fs : List (String × Bool)) (name : String) : Bool :=
  (assocLookup name fs).getD false

/-- `MouseKeyboardAgent._check_authorization` (mouse_keyboard_agent.py:381-400):
read the policy file; deny when `operator_enabled` is falsy, otherwise return
`features.get("control_mouse_keyboard", False)`.  `FileNotFoundError` and any
parse error return `False`, modelled by the `none` case. -/
def checkAuthorization : Option PolicyConfig → Bool
  | none => false
  | some cfg =>
      if (cfg.operator_enabled.getD false) = false then false
      else featureFlag (cfg.features.getD []) "control_mouse_keyboard"

/-- `InputActionType` enum. -/
inductive InputActionType where
  | click | right_click | double_click | move_to | type_text
  | hotkey | scroll | press_key | drag
  deriving Repr, DecidableEq

/-- `InputTask` record (timestamps as abstract clock readings). -/
structure InputTask where
  task_id : String
  action_type : InputActionType
  status : String
  created_at : Nat
  started_at : Option Nat
  finished_at : Option Nat
  error : Option String
  result : Option String
  retry_count : Nat
  max_retries : Nat
  deriving Repr, DecidableEq

/-- One line of the agent's audit log (`_audit_log` / `_audit_log_event`):
the task id (when tied to a task) and the status or event string. -/
structure AuditEntry where
  task_id : Option String
  event : String
  deriving Repr, DecidableEq

/-- Mutable state of `MouseKeyboardAgent` touched by `submit_task`:
the task map, the bounded history ring, the queue, and the audit log. -/
structure AgentState where
  tasks : List (String × InputTask)
  history : List String
  queue : List String
  audit : List AuditEntry
  deriving Repr, DecidableEq

def HISTORY_MAX : Nat := 50
def MAX_RETRIES : Nat := 2
def RETRY_DELAY : Nat := 1

/-- Errors `submit_task` can raise. -/
inductive SubmitError where
  | runtimeUnavailable
  | permissionDenied
  deriving Repr, DecidableEq

/-- `MouseKeyboardAgent.submit_task` (mouse_keyboard_agent.py:180-213).
Raising is modelled as returning the unchanged state together with the
error; on success the task is registered in the map, the history ring and
the queue, and a "queued" audit entry is appended. -/
def submitTask (st : AgentState) (pyautoguiAvailable : Bool)
    (cfg : Option PolicyConfig) (tid : String) (atype : InputActionType)
    (now : Nat) : AgentState × Except SubmitError InputTask :=
  if pyautoguiAvailable = false then
    (st, Except.error SubmitError.runtimeUnavailable)
  else if checkAuthorization cfg = false then
    (st, Except.error SubmitError.permissionDenied)
  else
    let task : InputTask :=
      { task_id := tid, action_type := atype, status := "queued",
        created_at := now, started_at := none, finished_at := none,
        error := none, result := none, retry_count := 0,
        max_retries := MAX_RETRIES }
    ({ tasks := st.tasks ++ [(tid, task)],
       history := pushBounded HISTORY_MAX st.history tid,
       queue := st.queue ++ [tid],
       audit := st.audit ++ [{ task_id := some tid, event := "queued" }] },
     Except.ok task)

/-- Python exception classes raised by `_execute_input_action`. -/
inductive ErrClass where
  | runtimeError
  | valueError
  deriving Repr, DecidableEq

/-- A raised Python exception: class and message. -/
structure RaisedError where
  cls : ErrClass
  msg : String
  deriving Repr, DecidableEq

/-- `MouseKeyboardAgent._execute_input_action` error wrapping
(mouse_keyboard_agent.py:375-379): the underlying pyautogui call either
returns a result string or raises with message `exc`; if the lowercased
message contains "failsafe" the method raises
`RuntimeError("PyAutoGUI failsafe triggered (mouse in corner)")`, otherwise
`RuntimeError("Input action failed: " + exc)`. -/
def executeInputAction (raw : Except String String) : Except RaisedError String :=
  match raw with
  | Except.ok r => Except.ok r
  | Except.error exc =>
      if containsSub (pyLower exc) "failsafe" then
        Except.error ⟨ErrClass.runtimeError,
          "PyAutoGUI failsafe triggered (mouse in corner)"⟩
      else
        Except.error ⟨ErrClass.runtimeError, "Input action failed: " ++ exc⟩

/-- Observable outcome of the worker's retry loop for one task
(`_worker`, mouse_keyboard_agent.py:251-299): final status, result or
error text, the task's `retry_count`, the number of attempts actually
made, and the sequence of backoff sleeps (seconds). -/
structure TaskOutcome where
  status : String
  result : Option String
  error : Option String
  retry_count : Nat
  attempts : Nat
  sleeps : List Nat
  deriving Repr, DecidableEq

/-- The retry loop of `_worker` from a given attempt onward.  `remaining`
counts the attempts still allowed after the current one (`max_retries -
attempt` in the source); `rc` is the current `retry_count`; `sleeps`
accumulates the backoff delays `RETRY_DELAY * (attempt + 1)` slept so far. -/
def retryFrom (raw : Nat → Except String String) (maxRetries : Nat) :
    Nat → Nat → Nat → List Nat → TaskOutcome
  | 0, attempt, rc, sleeps =>
      (match executeInputAction (raw attempt) with
       | Except.ok r =>
           { status := "completed", result := some r, error := none,
             retry_count := rc, attempts := attempt + 1, sleeps := sleeps }
       | Except.error e =>
           { status := "error", result := none,
             error := some ("Failed after " ++ toString (maxRetries + 1) ++
               " attempts: " ++ e.msg),
             retry_count := attempt, attempts := attempt + 1, sleeps := sleeps })
  | Nat.succ rem, attempt, rc, sleeps =>
      (match executeInputAction (raw attempt) with
       | Except.ok r =>
           { status := "completed", result := some r, error := none,
             retry_count := rc, attempts := attempt + 1, sleeps := sleeps }
       | Except.error _ =>
           retryFrom raw maxRetries rem (attempt + 1) attempt
             (sleeps ++ [RETRY_DELAY * (attempt + 1)]))

/-- The worker's processing of one task: up to `maxRetries + 1` attempts,
each attempt's pyautogui outcome supplied by the oracle `raw`. -/
def runTask (raw : Nat → Except String String) (maxRetries : Nat) : TaskOutcome :=
  retryFrom raw maxRetries maxRetries 0 0 []

end MouseKeyboardAgent

/-! ## Autonomous engine (`autonomous_engine.py`) -/

namespace AutonomousEngine

/-- `ActionType` enum (autonomous_engine.py:47-63): the closed action
vocabulary of §4.6. -/
inductive ActionType where
  | web_navigate | web_click | web_type | web_extract
  | cli_execute | file_read | file_write | file_delete
  | screenshot | vision_analyze | mouse_move | mouse_click
  | keyboard_type | wait | verify
  deriving Repr, DecidableEq

/-- Python `str()` of an `ActionType` member, as it appears in the
`Unsupported action type` error message. -/
def ActionType.pyName : ActionType → String
  | web_navigate => "ActionType.WEB_NAVIGATE"
  | web_click => "ActionType.WEB_CLICK"
  | web_type => "ActionType.WEB_TYPE"
  | web_extract => "ActionType.WEB_EXTRACT"
  | cli_execute => "ActionType.CLI_EXECUTE"
  | file_read => "ActionType.FILE_READ"
  | file_write => "ActionType.FILE_WRITE"
  | file_delete => "ActionType.FILE_DELETE"
  | screenshot => "ActionType.SCREENSHOT"
  | vision_analyze => "ActionType.VISION_ANALYZE"
  | mouse_move => "ActionType.MOUSE_MOVE"
  | mouse_click => "ActionType.MOUSE_CLICK"
  | keyboard_type => "ActionType.KEYBOARD_TYPE"
  | wait => "ActionType.WAIT"
  | verify => "ActionType.VERIFY"

/-- `Action` record (autonomous_engine.py:66-78); the wall-clock fields are
omitted, results are abstracted to strings. -/
structure Action where
  action_id : String
  action_type : ActionType
  description : String
  status : String
  result : Option String
  error : Option String
  deriving Repr, DecidableEq

/-- The action kinds `_execute_action` (autonomous_engine.py:324-375)
actually routes to a subsystem helper: the `if/elif` chain names exactly
these ten; every other kind falls into the `else` branch that raises
`ValueError("Unsupported action type: ...")`. -/
def dispatchable : ActionType → Bool
  | ActionType.web_navigate => true
  | ActionType.cli_execute => true
  | ActionType.screenshot => true
  | ActionType.vision_analyze => true
  | ActionType.mouse_click => true
  | ActionType.keyboard_type => true
  | ActionType.wait => true
  | ActionType.file_read => true
  | ActionType.file_write => true
  | ActionType.verify => true
  | _ => false

/-- `AutonomousEngine._execute_action`: set status to `executing`, dispatch
to the subsystem (the oracle `env` stands for the subsystem helpers'
results), record result and `completed` status on success; any exception —
a subsystem failure or the `ValueError` for an unsupported kind — is caught
by the enclosing `except`, which records `failed` and the error text and
returns normally (the planner never sees an exception). -/
def executeAction (env : ActionType → Except String String) (a : Action) : Action :=
  let a1 := { a with status := "executing" }
  if dispatchable a.action_type then
    match env a.action_type with
    | Except.ok r => { a1 with status := "completed", result := some r }
    | Except.error e => { a1 with status := "failed", error := some e }
  else
    { a1 with
        status := "failed",
        error := some ("Unsupported action type: " ++ a.action_type.pyName) }

/-- A minimal pending action of a given kind, as `_plan_workflow` would
construct it from the planner response (the in-code planning prompt,
autonomous_engine.py:254-269, advertises every one of the fifteen kinds
as available, and `_plan_workflow` parses each into such an `Action`). -/
def probeAction (t : ActionType) : Action :=
  { action_id := "action_0", action_type := t, description := "probe",
    status := "pending", result := none, error := none }

/-- `WorkflowStatus` enum. -/
inductive WorkflowStatus where
  | planning | executing | verifying | completed | failed | paused
  deriving Repr, DecidableEq

/-- The workflow counters and status mutated by the execution loop of
`execute_request` (autonomous_engine.py:196-239).  `executed` counts the
loop iterations actually performed. -/
structure WfState where
  status : WorkflowStatus
  completed_actions : Nat
  failed_actions : Nat
  executed : Nat
  error : Option String
  deriving Repr, DecidableEq

/-- State at entry of the execution phase (after planning). -/
def initWfState : WfState :=
  { status := WorkflowStatus.executing, completed_actions := 0,
    failed_actions := 0, executed := 0, error := none }

/-- One iteration of the `for i, action in enumerate(actions)` loop:
`outcome i = none` means `_execute_action` left action `i` with status
`completed`; `outcome i = some e` means it failed with error text `e`.
`recovery i` is the boolean result of `_attempt_recovery` for action `i`
(which mutates no workflow counter).  Once the status left `executing`
(the loop broke), the iteration does not run. -/
def execStep (outcome : Nat → Option String) (recovery : Nat → Bool)
    (i : Nat) (st : WfState) : WfState :=
  if st.status = WorkflowStatus.executing then
    match outcome i with
    | none =>
        { st with completed_actions := st.completed_actions + 1,
                  executed := st.executed + 1 }
    | some e =>
        let st1 := { st with failed_actions := st.failed_actions + 1,
                             executed := st.executed + 1 }
        if recovery i then st1
        else { st1 with
                status := WorkflowStatus.failed,
                error := some ("Action " ++ toString (i + 1) ++ " failed: " ++ e) }
  else st

/-- The execution-loop state after the first `k` planned actions have been
considered. -/
def execActions (outcome : Nat → Option String) (recovery : Nat → Bool) :
    Nat → WfState
  | 0 => initWfState
  | n + 1 => execStep outcome recovery n (execActions outcome recovery n)

/-- The execution phase of `execute_request` over a plan of `n` actions:
run the loop, then promote a still-`executing` workflow to `completed`. -/
def runWorkflowPhase (outcome : Nat → Option String) (recovery : Nat → Bool)
    (n : Nat) : WfState :=
  let st := execActions outcome recovery n
  if st.status = WorkflowStatus.executing then
    { st with status := WorkflowStatus.completed }
  else st

end AutonomousEngine

/-! ## LLM router (`llm_orchestrator.py`) -/

namespace LLMOrchestrator

/-- `LLMProvider` enum (llm_orchestrator.py:34-45). -/
inductive LLMProvider where
  | claude_sonnet | claude_opus | gpt4_turbo | gpt4
  | gemini_pro | gemini_flash
  | ollama_qwen | ollama_llama | ollama_codellama
  | codex
  deriving Repr, DecidableEq

/-- The `.value` strings of the enum. -/
def LLMProvider.value : LLMProvider → String
  | claude_sonnet => "claude-sonnet-4-5"
  | claude_opus => "claude-opus-4"
  | gpt4_turbo => "gpt-4-turbo"
  | gpt4 => "gpt-4"
  | gemini_pro => "gemini-pro"
  | gemini_flash => "gemini-flash"
  | ollama_qwen => "ollama-qwen2.5"
  | ollama_llama => "ollama-llama3.2"
  | ollama_codellama => "ollama-codellama"
  | codex => "codex"

/-- `TaskType` enum (llm_orchestrator.py:48-61). -/
inductive TaskType where
  | reasoning | code_generation | code_review | analysis
  | conversation | summarization | translation | cli_command
  | web_scraping | creative_writing | math | long_context
  deriving Repr, DecidableEq

/-- `LLMStats` per-provider counters (llm_orchestrator.py:79-92).
Python floats are modelled as rationals. -/
structure LLMStats where
  total_requests : Nat
  total_tokens : Nat
  total_cost_usd : ℚ
  total_latency_ms : ℚ
  success_count : Nat
  error_count : Nat
  average_latency_ms : ℚ
  average_cost_per_request : ℚ
  quality_score : ℚ
  last_used : Option String
  deriving Repr, DecidableEq

/-- All-zero provider statistics (a fresh `LLMStats(provider=p)`). -/
def statsZero : LLMStats :=
  { total_requests := 0, total_tokens := 0, total_cost_usd := 0,
    total_latency_ms := 0, success_count := 0, error_count := 0,
    average_latency_ms := 0, average_cost_per_request := 0,
    quality_score := 0, last_used := none }

/-- What a successful `_call_llm` returns (an `LLMResponse` before any
metadata is attached). -/
structure CallResult where
  response : String
  tokens_input : Nat
  tokens_output : Nat
  latency_ms : ℚ
  cost_usd : ℚ
  deriving Repr, DecidableEq

/-- `LLMResponse` (llm_orchestrator.py:64-76); the two metadata keys
`generate`/`_try_fallback` ever set are modelled as optional fields. -/
structure LLMResponse where
  provider : LLMProvider
  response : String
  tokens_input : Nat
  tokens_output : Nat
  latency_ms : ℚ
  cost_usd : ℚ
  error : Option String
  fallback_from : Option LLMProvider
  original_error : Option String
  deriving Repr, DecidableEq

/-- `TASK_PREFERENCES` (llm_orchestrator.py:125-167) combined with the
lookup default `[CLAUDE_SONNET]` used by `_select_llm_for_task` for task
types missing from the dict (translation, web_scraping, creative_writing). -/
def taskPreferences : TaskType → List LLMProvider
  | TaskType.reasoning =>
      [LLMProvider.claude_opus, LLMProvider.claude_sonnet, LLMProvider.gpt4]
  | TaskType.code_generation =>
      [LLMProvider.gpt4_turbo, LLMProvider.claude_sonnet,
        LLMProvider.ollama_codellama]
  | TaskType.code_review =>
      [LLMProvider.claude_sonnet, LLMProvider.gpt4_turbo]
  | TaskType.analysis =>
      [LLMProvider.claude_sonnet, LLMProvider.gpt4_turbo,
        LLMProvider.gemini_pro]
  | TaskType.conversation =>
      [LLMProvider.claude_sonnet, LLMProvider.gpt4_turbo,
        LLMProvider.ollama_llama]
  | TaskType.summarization =>
      [LLMProvider.gemini_flash, LLMProvider.claude_sonnet]
  | TaskType.cli_command =>
      [LLMProvider.codex, LLMProvider.gpt4_turbo,
        LLMProvider.ollama_codellama]
  | TaskType.long_context =>
      [LLMProvider.gemini_pro, LLMProvider.claude_opus]
  | TaskType.math =>
      [LLMProvider.gpt4, LLMProvider.claude_opus]
  | _ => [LLMProvider.claude_sonnet]

/-- Python truthiness of an optional float (`if max_cost_usd and ...`):
`None` and `0.0` are falsy. -/
def pyTruthyQ : Option ℚ → Bool
  | none => false
  | some c => decide (c ≠ 0)

/-- The availability check of `_select_llm_for_task`
(llm_orchestrator.py:341-345): the error rate over strictly more than 10
recorded requests exceeds 0.5. -/
def errorRateHigh (s : LLMStats) : Prop :=
  s.total_requests > 10 ∧
    (s.error_count : ℚ) / (s.total_requests : ℚ) > 1 / 2

instance (s : LLMStats) : Decidable (errorRateHigh s) :=
  inferInstanceAs (Decidable (s.total_requests > 10 ∧
    (s.error_count : ℚ) / (s.total_requests : ℚ) > 1 / 2))

/-- The iteration inside `_select_llm_for_task` (llm_orchestrator.py:317-350):
walk the preference list; `continue` past a provider whose rolling average
cost or latency exceeds a (truthy) ceiling, or whose error rate is high
(`errorRateHigh`); return the first survivor, and `OLLAMA_LLAMA` when the
list is exhausted. -/
def selectLoop (stats : LLMProvider → LLMStats) (maxCost maxLat : Option ℚ) :
    List LLMProvider → LLMProvider
  | [] => LLMProvider.ollama_llama
  | p :: rest =>
      let s := stats p
      if pyTruthyQ maxCost = true ∧ s.average_cost_per_request > maxCost.getD 0 then
        selectLoop stats maxCost maxLat rest
      else if pyTruthyQ maxLat = true ∧ s.average_latency_ms > maxLat.getD 0 then
        selectLoop stats maxCost maxLat rest
      else if errorRateHigh s then
        selectLoop stats maxCost maxLat rest
      else p

/-- `LLMOrchestrator._select_llm_for_task`. -/
def selectLLMForTask (stats : LLMProvider → LLMStats) (t : TaskType)
    (maxCost maxLat : Option ℚ) : LLMProvider :=
  selectLoop stats maxCost maxLat (taskPreferences t)

/-- Spec-side reformulation of the selection rule, following the spec text
(with the threshold amended to strictly more than 10 recorded requests):
skip every preferred provider whose error rate over more than 10 recorded
requests exceeds 0.5, return the first survivor, and fall back to the free
local provider `OLLAMA_LLAMA` when all are skipped.  Used to compare
`selectLLMForTask` (no cost/latency ceilings) against the spec sentence. -/
def selectSpec (stats : LLMProvider → LLMStats) (t : TaskType) : LLMProvider :=
  ((taskPreferences t).filter (fun p =>
      !(decide (errorRateHigh (stats p))))).headD
    LLMProvider.ollama_llama

/-- `FALLBACK_ORDER` inside `_try_fallback` (llm_orchestrator.py:638-642). -/
def FALLBACK_ORDER : List LLMProvider :=
  [LLMProvider.claude_sonnet, LLMProvider.gpt4_turbo, LLMProvider.ollama_llama]

/-- The `LLMResponse` built from a successful `_call_llm` result. -/
def successResponse (p : LLMProvider) (r : CallResult) : LLMResponse :=
  { provider := p, response := r.response, tokens_input := r.tokens_input,
    tokens_output := r.tokens_output, latency_ms := r.latency_ms,
    cost_usd := r.cost_usd, error := none, fallback_from := none,
    original_error := none }

/-- The all-failed response at the end of `_try_fallback`
(llm_orchestrator.py:660-670). -/
def errorResponse (p : LLMProvider) (errMsg : String) : LLMResponse :=
  { provider := p, response := "", tokens_input := 0, tokens_output := 0,
    latency_ms := 0, cost_usd := 0,
    error := some ("All LLMs failed. Last error: " ++ errMsg),
    fallback_from := none, original_error := none }

/-- The loop of `_try_fallback` (llm_orchestrator.py:644-657): walk the
fallback order, skip the provider that already failed, return the first
successful call annotated with `fallback_from` and `original_error`;
every failure is swallowed and the loop continues. -/
def fallbackLoop (env : LLMProvider → Except String CallResult)
    (failed : LLMProvider) (errMsg : String) : List LLMProvider → LLMResponse
  | [] => errorResponse failed errMsg
  | p :: rest =>
      if p = failed then fallbackLoop env failed errMsg rest
      else
        match env p with
        | Except.ok r =>
            { successResponse p r with
                fallback_from := some failed, original_error := some errMsg }
        | Except.error _ => fallbackLoop env failed errMsg rest

/-- `LLMOrchestrator._try_fallback`. -/
def tryFallback (env : LLMProvider → Except String CallResult)
    (failed : LLMProvider) (errMsg : String) : LLMResponse :=
  fallbackLoop env failed errMsg FALLBACK_ORDER

/-- The stats update in the success branch of `generate`
(llm_orchestrator.py:246-256); `elapsed` is the measured wall-clock
latency of the call in milliseconds. -/
def updateStatsSuccess (stats : LLMProvider → LLMStats) (p : LLMProvider)
    (r : CallResult) (elapsed : ℚ) : LLMProvider → LLMStats :=
  fun q =>
    if q = p then
      let s := stats p
      { s with
          total_requests := s.total_requests + 1,
          success_count := s.success_count + 1,
          total_tokens := s.total_tokens + r.tokens_input + r.tokens_output,
          total_cost_usd := s.total_cost_usd + r.cost_usd,
          total_latency_ms := s.total_latency_ms + elapsed,
          average_latency_ms :=
            (s.total_latency_ms + elapsed) / ((s.total_requests : ℚ) + 1),
          average_cost_per_request :=
            (s.total_cost_usd + r.cost_usd) / ((s.total_requests : ℚ) + 1) }
    else stats q

/-- The stats update in the error branch of `generate`
(llm_orchestrator.py:269-272). -/
def updateStatsError (stats : LLMProvider → LLMStats) (p : LLMProvider) :
    LLMProvider → LLMStats :=
  fun q =>
    if q = p then
      let s := stats p
      { s with
          total_requests := s.total_requests + 1,
          error_count := s.error_count + 1 }
    else stats q

/-- Provider selection at the top of `generate`
(llm_orchestrator.py:223-232): an explicit preference wins, else route by
task type, else default to `CLAUDE_SONNET`. -/
def selectProvider (stats : LLMProvider → LLMStats)
    (preferred : Option LLMProvider) (taskType : Option TaskType)
    (maxCost maxLat : Option ℚ) : LLMProvider :=
  match preferred with
  | some p => p
  | none =>
      match taskType with
      | some t => selectLLMForTask stats t maxCost maxLat
      | none => LLMProvider.claude_sonnet

/-- `LLMOrchestrator.generate` (llm_orchestrator.py:196-279): select a
provider, call it (the oracle `env` stands for `_call_llm`); on success
update the success counters and return the response; on any exception
increment `total_requests` and `error_count` of the selected provider and
return whatever `_try_fallback` produces — never raising to the caller. -/
def generate (env : LLMProvider → Except String CallResult)
    (stats : LLMProvider → LLMStats) (preferred : Option LLMProvider)
    (taskType : Option TaskType) (maxCost maxLat : Option ℚ) (elapsed : ℚ) :
    (LLMProvider → LLMStats) × LLMResponse :=
  let provider := selectProvider stats preferred taskType maxCost maxLat
  match env provider with
  | Except.ok r => (updateStatsSuccess stats provider r elapsed,
      successResponse provider r)
  | Except.error e => (updateStatsError stats provider,
      tryFallback env provider e)

/-- Whether an `Except` is a success. -/
def exceptIsOk : Except ε α → Bool
  | Except.ok _ => true
  | Except.error _ => false

end LLMOrchestrator

/-! ## CLI task broker (`cli_agent_backup.py`) -/

namespace CLIAgent

/-- `AgentType` enum. -/
inductive AgentType where
  | claude | codex
  deriving Repr, DecidableEq

/-- The `.value` string of an agent. -/
def AgentType.value : AgentType → String
  | claude => "claude"
  | codex => "codex"

/-- `CLITask` record (cli_agent_backup.py:27-56); timestamps are abstract
clock readings, the per-line stream log buffer is omitted (no claim
inspects it). -/
structure CLITask where
  id : String
  agent : AgentType
  prompt : String
  status : String
  created_at : Nat
  started_at : Option Nat
  finished_at : Option Nat
  timeout : Nat
  result : Option String
  error : Option String
  deriving Repr, DecidableEq

def HISTORY_MAX : Nat := 20
def TIMEOUT_DEFAULT : Nat := 300

/-- A freshly submitted task (`submit_task`, cli_agent_backup.py:88-96). -/
def mkTask (id : String) (agent : AgentType) (prompt : String)
    (timeout : Nat) (created : Nat) : CLITask :=
  { id := id, agent := agent, prompt := prompt, status := "queued",
    created_at := created, started_at := none, finished_at := none,
    timeout := timeout, result := none, error := none }

/-- Outcome of the spawned subprocess, as observed by `_run_subprocess`
(cli_agent_backup.py:154-205): the binary was missing
(`FileNotFoundError` → `RuntimeError`), the wall-clock deadline expired,
or the process exited with a code and its streamed output lines. -/
inductive SubprocOutcome where
  | spawnNotFound
  | timedOut
  | exited (code : Int) (stdout_lines stderr_lines : List String)
  deriving Repr, DecidableEq

/-- Python `"\n".join(lines)`. -/
def joinLines (ls : List String) : String :=
  String.intercalate "\n" ls

/-- Start of `_execute_task` under the semaphore
(cli_agent_backup.py:133-137): mark the task running. -/
def markRunning (t : CLITask) (tStart : Nat) : CLITask :=
  { t with status := "running", started_at := some tStart }

/-- The terminal transition of `_execute_task`/`_run_subprocess`: on
timeout the child is killed (the returned flag) and status becomes
`timeout`; a missing binary becomes `error`; exit code 0 becomes
`completed` with the joined stdout as result; a non-zero exit becomes
`error` with the joined stderr — or, when stderr is empty, the Python
`or`-fallback text `"Exit code <code>"`.  (The source quotes the agent
name in the missing-binary message; the quotes are elided here.)
`finished_at` is stamped in the `finally` block. -/
def finishTask (t1 : CLITask) (outcome : SubprocOutcome) (tFinish : Nat) :
    CLITask × Bool :=
  let (t2, killed) :=
    match outcome with
    | SubprocOutcome.timedOut =>
        ({ t1 with status := "timeout", error := some "Execution timed out" },
         true)
    | SubprocOutcome.spawnNotFound =>
        ({ t1 with
            status := "error",
            error := some ("CLI binary " ++ t1.agent.value ++
              " not found in PATH") },
         false)
    | SubprocOutcome.exited code out errls =>
        if code = 0 then
          ({ t1 with status := "completed", result := some (joinLines out) },
           false)
        else
          ({ t1 with
              status := "error",
              error := some (if joinLines errls = "" then
                  "Exit code " ++ toString code
                else joinLines errls) },
           false)
  ({ t2 with finished_at := some tFinish }, killed)

/-- `CLIAgent._execute_task` for one task: run, then finish per the
subprocess outcome. -/
def executeTask (t : CLITask) (outcome : SubprocOutcome)
    (tStart tFinish : Nat) : CLITask × Bool :=
  finishTask (markRunning t tStart) outcome tFinish

/-- The broker state touched by `submit_task`/`get_task`
(cli_agent_backup.py:71-78): the task dict — which nothing ever prunes —
and the `deque(maxlen=20)` history ring. -/
structure BrokerState where
  tasks : List (String × CLITask)
  history : List String
  deriving Repr, DecidableEq

/-- Python `timeout or TIMEOUT_DEFAULT` (`None` and `0` fall back). -/
def timeoutOrDefault : Option Nat → Nat
  | none => TIMEOUT_DEFAULT
  | some n => if n = 0 then TIMEOUT_DEFAULT else n

/-- `CLIAgent.submit_task` (cli_agent_backup.py:80-102): create the queued
task, store it in the dict and append its id to the bounded history ring. -/
def submitTask (st : BrokerState) (id : String) (agent : AgentType)
    (prompt : String) (timeout : Option Nat) (now : Nat) :
    BrokerState × CLITask :=
  let task := mkTask id agent prompt (timeoutOrDefault timeout) now
  ({ tasks := assocInsert id task st.tasks,
     history := pushBounded HISTORY_MAX st.history id },
   task)

/-- `CLIAgent.get_task`: a plain dict lookup. -/
def getTask (st : BrokerState) (id : String) : Option CLITask :=
  assocLookup id st.tasks

/-- `CLIAgent.list_tasks` without agent filter: the tasks of the ids still
in the history ring. -/
def listTasks (st : BrokerState) : List CLITask :=
  st.history.filterMap (fun tid => getTask st tid)

/-- A sequence of submissions against a fresh broker (all with the same
agent, prompt and clock; only the ids matter to the retention claims). -/
def submitAll (ids : List String) : BrokerState :=
  ids.foldl (fun st id => (submitTask st id AgentType.claude "p" none 0).1)
    ⟨[], []⟩

end CLIAgent

/-! ## Cache tiering (`cache_manager.py`) -/

/-- One `OrderedDict` slot of `MemoryCache._cache`: key → `(value, size,
timestamp)`.  The list front is the least recently used end
(`popitem(last=False)`). -/
structure MemEntry where
  key : String
  value : PyVal
  size : Nat
  timestamp : Nat
  deriving Repr, DecidableEq

/-- First entry with the given key. -/
def entriesLookup (key : String) : List MemEntry → Option MemEntry
  | [] => none
  | e :: rest => if e.key = key then some e else entriesLookup key rest

/-- Remove the first entry with the given key. -/
def entriesRemove (key : String) : List MemEntry → List MemEntry
  | [] => []
  | e :: rest => if e.key = key then rest else e :: entriesRemove key rest

/-- Replace the first entry with the given key in place (Python dict
assignment keeps the slot position). -/
def entriesReplace (key : String) (entry : MemEntry) :
    List MemEntry → List MemEntry
  | [] => []
  | e :: rest =>
      if e.key = key then entry :: rest else e :: entriesReplace key entry rest

/-- Whether some entry has the given key. -/
def entriesContains (key : String) : List MemEntry → Bool
  | [] => false
  | e :: rest => (e.key = key) || entriesContains key rest

/-- `MemoryCache` state (cache_manager.py:25-35). -/
structure MemoryCache where
  cache : List MemEntry
  max_size_bytes : Nat
  current_size_bytes : Nat
  hits : Nat
  misses : Nat
  evictions : Nat
  deriving Repr, DecidableEq

/-- `MemoryCache.get` (cache_manager.py:37-48): on a hit, move the entry to
the most-recently-used end and return its value — the stored timestamp is
never read; on a miss return `None`.  Python cannot distinguish a stored
`None` from a miss in the return value, hence the plain `PyVal` result. -/
def MemoryCache.get (mc : MemoryCache) (key : String) : PyVal × MemoryCache :=
  match entriesLookup key mc.cache with
  | some e =>
      (e.value,
        { mc with
            cache := entriesRemove key mc.cache ++ [e],
            hits := mc.hits + 1 })
  | none => (PyVal.vnone, { mc with misses := mc.misses + 1 })

/-- Python truthiness of an optional int (`if ttl:`). -/
def pyTruthyNat : Option Nat → Bool
  | none => false
  | some n => decide (n ≠ 0)

/-- The eviction loop of `MemoryCache.set` (cache_manager.py:62-66): while
the new entry does not fit and the dict is non-empty, pop the LRU front,
subtract its size, and count an eviction.  Returns the surviving entries,
the adjusted size and the eviction counter. -/
def evictLoop (maxB need : Nat) : List MemEntry → Nat → Nat →
    List MemEntry × Nat × Nat
  | [], cur, ev => ([], cur, ev)
  | e :: rest, cur, ev =>
      if cur + need > maxB then evictLoop maxB need rest (cur - e.size) (ev + 1)
      else (e :: rest, cur, ev)

/-- `MemoryCache.set` (cache_manager.py:50-74): size the value (the pickle
length, abstracted as `sz`), evict LRU entries until it fits, store the
entry with timestamp `now` — plus the TTL when truthy, recording the
expiration time — and add its size to the running total (with dict
semantics: an existing key keeps its slot). -/
def MemoryCache.set (sz : PyVal → Nat) (mc : MemoryCache) (key : String)
    (value : PyVal) (now : Nat) (ttl : Option Nat) : MemoryCache :=
  let size := sz value
  let (cache1, cur1, ev1) :=
    evictLoop mc.max_size_bytes size mc.cache mc.current_size_bytes mc.evictions
  let timestamp := if pyTruthyNat ttl then now + ttl.getD 0 else now
  let entry : MemEntry := ⟨key, value, size, timestamp⟩
  if entriesContains key cache1 then
    { mc with
        cache := entriesReplace key entry cache1,
        current_size_bytes := cur1 + size,
        evictions := ev1 }
  else
    { mc with
        cache := cache1 ++ [entry],
        current_size_bytes := cur1 + size,
        evictions := ev1 }

/-- `MemoryCache.delete` (cache_manager.py:76-81). -/
def MemoryCache.delete (mc : MemoryCache) (key : String) : MemoryCache :=
  match entriesLookup key mc.cache with
  | some e =>
      { mc with
          cache := entriesRemove key mc.cache,
          current_size_bytes := mc.current_size_bytes - e.size }
  | none => mc

/-- State of `DiskCache` and `RedisCache` as the manager observes them:
an availability flag and the external key-value store (the `diskcache`
and `redis` libraries are modelled as plain KV maps; their own expiry is
outside the embedded code, and every claim here performs immediate
lookups). -/
structure SimpleKV where
  available : Bool
  store : List (String × PyVal)
  deriving Repr, DecidableEq

/-- `DiskCache.get` / `RedisCache.get`: `None` when unavailable or absent. -/
def kvGet (d : SimpleKV) (key : String) : PyVal :=
  if d.available then (assocLookup key d.store).getD PyVal.vnone
  else PyVal.vnone

/-- `DiskCache.set` / `RedisCache.set`: no-op when unavailable. -/
def kvSet (d : SimpleKV) (key : String) (v : PyVal) : SimpleKV :=
  if d.available then { d with store := assocInsert key v d.store } else d

/-- `CacheManager` over its three tiers (cache_manager.py:278-304). -/
structure CacheManager where
  memory : MemoryCache
  disk : SimpleKV
  redis : SimpleKV
  deriving Repr, DecidableEq

/-- `CacheManager._generate_key`. -/
def generateKey (ns key : String) : String :=
  ns ++ ":" ++ key

/-- `CacheManager.get` (cache_manager.py:324-357): memory, then disk (on a
hit promote to memory), then redis (on a hit promote to memory and disk);
a value `is not None` counts as a hit. -/
def CacheManager.get (sz : PyVal → Nat) (now : Nat) (cm : CacheManager)
    (ns key : String) : (PyVal × String) × CacheManager :=
  let ck := generateKey ns key
  let (v1, mem1) := MemoryCache.get cm.memory ck
  if v1 ≠ PyVal.vnone then ((v1, "memory"), { cm with memory := mem1 })
  else
    let v2 := kvGet cm.disk ck
    if v2 ≠ PyVal.vnone then
      ((v2, "disk"), { cm with memory := MemoryCache.set sz mem1 ck v2 now none })
    else
      let v3 := kvGet cm.redis ck
      if v3 ≠ PyVal.vnone then
        ((v3, "redis"),
          { cm with
              memory := MemoryCache.set sz mem1 ck v3 now none,
              disk := kvSet cm.disk ck v3 })
      else ((PyVal.vnone, "miss"), { cm with memory := mem1 })

/-- Python truthiness of the optional tier list (`tiers = tiers or [...]`). -/
def pyTruthyList : Option (List String) → Bool
  | none => false
  | some l => !l.isEmpty

/-- `CacheManager.set` (cache_manager.py:359-387): write the value into
each selected tier (all three by default). -/
def CacheManager.set (sz : PyVal → Nat) (now : Nat) (cm : CacheManager)
    (ns key : String) (value : PyVal) (ttl : Option Nat)
    (tiers : Option (List String)) : CacheManager :=
  let ck := generateKey ns key
  let ts := if pyTruthyList tiers then tiers.getD []
    else ["memory", "disk", "redis"]
  { memory := if ts.contains "memory" then
        MemoryCache.set sz cm.memory ck value now ttl
      else cm.memory,
    disk := if ts.contains "disk" then kvSet cm.disk ck value else cm.disk,
    redis := if ts.contains "redis" then kvSet cm.redis ck value else cm.redis }

/-! # Theorems -/

theorem assocLookup_insert (key : String) (v : α) :
    ∀ l : List (String × α), assocLookup key (assocInsert key v l) = some v := by
  intro l
  induction l with
  | nil => simp [assocInsert, assocLookup]
  | cons hd tl ih =>
      obtain ⟨k, w⟩ := hd
      by_cases h : k = key
      · simp [assocInsert, assocLookup, h]
      · simp [assocInsert, assocLookup, h, ih]

theorem assocLookup_insert_ne (key key2 : String) (v : α) (hne : key ≠ key2) :
    ∀ l : List (String × α),
      assocLookup key2 (assocInsert key v l) = assocLookup key2 l := by
  intro l
  induction l with
  | nil =>
      simp [assocInsert, assocLookup, hne]
  | cons hd tl ih =>
      obtain ⟨k, w⟩ := hd
      by_cases h : k = key
      · subst h
        simp [assocInsert, assocLookup, hne]
      · by_cases h2 : k = key2
        · simp [assocInsert, assocLookup, h, h2, Ne.symm hne]
        · simp [assocInsert, assocLookup, h, h2, ih]

/-! ## C1: authorization gate on input submission -/

open MouseKeyboardAgent in
/-- Claim C1: an input-control submission is authorized iff the policy
file parses and both `operator_enabled` and `features.control_mouse_keyboard`
are true; when authorization fails (including a missing or unparseable
policy file) `submit_task` raises `PermissionError` before any side effect:
the task map, history ring, queue and audit log are all unchanged and no
task object is returned. -/
theorem submitTask_authorization_gate
    (st : AgentState) (cfg : Option PolicyConfig) (tid : String)
    (atype : InputActionType) (now : Nat) :
    (checkAuthorization cfg = true ↔
      ∃ c, cfg = some c ∧ c.operator_enabled.getD false = true ∧
        featureFlag (c.features.getD []) "control_mouse_keyboard" = true) ∧
    (checkAuthorization cfg = false →
      submitTask st true cfg tid atype now =
        (st, Except.error SubmitError.permissionDenied)) := by
  constructor
  · constructor
    · intro h
      match cfg with
      | none => simp [checkAuthorization] at h
      | some c =>
          refine ⟨c, rfl, ?_, ?_⟩ <;>
            · simp only [checkAuthorization] at h
              by_cases hop : c.operator_enabled.getD false = false
              · simp [hop] at h
              · simp only [Bool.not_eq_false] at hop
                simp [hop] at h ⊢
                try exact h
    · rintro ⟨c, rfl, hop, hfeat⟩
      simp [checkAuthorization, hop, hfeat]
  · intro hdeny
    simp [submitTask, hdeny]

open MouseKeyboardAgent in
/-- Concrete witness for `submitTask_authorization_gate`: a policy file with
the master flag off denies the submission and leaves the state untouched. -/
theorem submitTask_authorization_gate_witness :
    submitTask ⟨[], [], [], []⟩ true
        (some ⟨some false, some [("control_mouse_keyboard", true)]⟩)
        "input_t1" InputActionType.click 5 =
      (⟨[], [], [], []⟩, Except.error SubmitError.permissionDenied) :=
  (submitTask_authorization_gate ⟨[], [], [], []⟩
      (some ⟨some false, some [("control_mouse_keyboard", true)]⟩)
      "input_t1" InputActionType.click 5).2 (by decide)

/-! ## C7: failsafe classification and the worker retry loop -/

namespace MouseKeyboardAgent

theorem executeInputAction_error (e : String) :
    executeInputAction (Except.error e) =
      Except.error ⟨ErrClass.runtimeError,
        if containsSub (pyLower e) "failsafe" then
          "PyAutoGUI failsafe triggered (mouse in corner)"
        else "Input action failed: " ++ e⟩ := by
  by_cases h : containsSub (pyLower e) "failsafe" <;>
    simp [executeInputAction, h]

end MouseKeyboardAgent

open MouseKeyboardAgent in
/-- Claim C7 counterexample: with the pyautogui failsafe firing on every
attempt, the worker still makes all three attempts (so failsafe errors are
retried, with backoff sleeps of 1s and 2s), and the failsafe is reported
as a `RuntimeError` — the same exception class as any other input failure,
not a distinct error class. -/
theorem inputWorker_failsafe_retried_counterexample :
    (runTask (fun _ => Except.error "failsafe triggered") 2).attempts = 3 ∧
    (runTask (fun _ => Except.error "failsafe triggered") 2).sleeps = [1, 2] ∧
    (runTask (fun _ => Except.error "failsafe triggered") 2).status = "error" ∧
    executeInputAction (Except.error "failsafe triggered") =
      Except.error ⟨ErrClass.runtimeError,
        "PyAutoGUI failsafe triggered (mouse in corner)"⟩ ∧
    executeInputAction (Except.error "other problem") =
      Except.error ⟨ErrClass.runtimeError, "Input action failed: other problem"⟩ := by
  refine ⟨?_, ?_, ?_, ?_, ?_⟩ <;> rfl

open MouseKeyboardAgent in
/-- Claim C7 (amended): a failsafe trigger raises `RuntimeError` with the
distinct message "PyAutoGUI failsafe triggered (mouse in corner)" — the same
exception class as every other input failure — and is retried like any other
failure; with the default `max_retries = 2`, a task whose every attempt
fails makes 3 attempts with backoff sleeps of `RETRY_DELAY * 1 = 1s` and
`RETRY_DELAY * 2 = 2s` before the task is marked `error`. -/
theorem inputWorker_retry_backoff
    (raw : Nat → Except String String)
    (hfail : ∀ i, i < 3 → ∃ e, raw i = Except.error e) :
    ((runTask raw 2).status = "error" ∧ (runTask raw 2).attempts = 3 ∧
      (runTask raw 2).sleeps = [RETRY_DELAY * 1, RETRY_DELAY * 2] ∧
      (runTask raw 2).retry_count = 2) ∧
    (∀ exc, containsSub (pyLower exc) "failsafe" = true →
      executeInputAction (Except.error exc) =
        Except.error ⟨ErrClass.runtimeError,
          "PyAutoGUI failsafe triggered (mouse in corner)"⟩) ∧
    (∀ exc, containsSub (pyLower exc) "failsafe" = false →
      executeInputAction (Except.error exc) =
        Except.error ⟨ErrClass.runtimeError, "Input action failed: " ++ exc⟩) := by
  refine ⟨?_, ?_, ?_⟩
  · obtain ⟨e0, h0⟩ := hfail 0 (by norm_num)
    obtain ⟨e1, h1⟩ := hfail 1 (by norm_num)
    obtain ⟨e2, h2⟩ := hfail 2 (by norm_num)
    refine ⟨?_, ?_, ?_, ?_⟩ <;>
      simp [runTask, retryFrom, h0, h1, h2, executeInputAction_error]
  · intro exc h
    simp [executeInputAction_error, h]
  · intro exc h
    simp [executeInputAction_error, h]

open MouseKeyboardAgent in
/-- Concrete witness for `inputWorker_retry_backoff`. -/
theorem inputWorker_retry_backoff_witness :
    (runTask (fun _ => Except.error "boom") 2).status = "error" ∧
    (runTask (fun _ => Except.error "boom") 2).attempts = 3 :=
  ⟨((inputWorker_retry_backoff (fun _ => Except.error "boom")
      (fun _ _ => ⟨"boom", rfl⟩)).1).1,
   ((inputWorker_retry_backoff (fun _ => Except.error "boom")
      (fun _ _ => ⟨"boom", rfl⟩)).1).2.1⟩

/-! ## C2: action executor dispatch -/

open AutonomousEngine in
/-- Claim C2: evaluation of `_execute_action` at the failing inputs.  The
planner prompt inside the same module advertises all fifteen §4.6 kinds as
available and `_plan_workflow` parses each of them into an `Action`, yet
for `web_click`, `web_type`, `web_extract`, `file_delete` and `mouse_move`
the executor — even in an environment where every subsystem call succeeds —
dispatches nothing, marking the action `failed` with an "Unsupported action
type" error and no result, while the same environment completes a
dispatched kind such as `web_navigate`.  Planned actions of those five
kinds can therefore never succeed. -/
theorem executeAction_unsupported_kinds_bug :
    ((executeAction (fun _ => Except.ok "ok")
        (probeAction ActionType.web_click)).status = "failed" ∧
      (executeAction (fun _ => Except.ok "ok")
        (probeAction ActionType.web_click)).error =
        some "Unsupported action type: ActionType.WEB_CLICK" ∧
      (executeAction (fun _ => Except.ok "ok")
        (probeAction ActionType.web_click)).result = none) ∧
    ((executeAction (fun _ => Except.ok "ok")
        (probeAction ActionType.web_type)).status = "failed" ∧
      (executeAction (fun _ => Except.ok "ok")
        (probeAction ActionType.web_type)).error =
        some "Unsupported action type: ActionType.WEB_TYPE") ∧
    ((executeAction (fun _ => Except.ok "ok")
        (probeAction ActionType.web_extract)).status = "failed" ∧
      (executeAction (fun _ => Except.ok "ok")
        (probeAction ActionType.web_extract)).error =
        some "Unsupported action type: ActionType.WEB_EXTRACT") ∧
    ((executeAction (fun _ => Except.ok "ok")
        (probeAction ActionType.file_delete)).status = "failed" ∧
      (executeAction (fun _ => Except.ok "ok")
        (probeAction ActionType.file_delete)).error =
        some "Unsupported action type: ActionType.FILE_DELETE") ∧
    ((executeAction (fun _ => Except.ok "ok")
        (probeAction ActionType.mouse_move)).status = "failed" ∧
      (executeAction (fun _ => Except.ok "ok")
        (probeAction ActionType.mouse_move)).error =
        some "Unsupported action type: ActionType.MOUSE_MOVE") ∧
    ((executeAction (fun _ => Except.ok "ok")
        (probeAction ActionType.web_navigate)).status = "completed" ∧
      (executeAction (fun _ => Except.ok "ok")
        (probeAction ActionType.web_navigate)).result = some "ok") := by
  exact ⟨⟨rfl, rfl, rfl⟩, ⟨rfl, rfl⟩, ⟨rfl, rfl⟩, ⟨rfl, rfl⟩, ⟨rfl, rfl⟩,
    ⟨rfl, rfl⟩⟩

open AutonomousEngine in
/-- The precise dispatch behaviour of `_execute_action`, supporting the
evaluation above: exactly ten of the fifteen kinds are routed to a
subsystem (web_navigate, cli_execute, screenshot, vision_analyze,
mouse_click, keyboard_type, wait, file_read, file_write, verify); every
other kind is marked `failed` with an "Unsupported action type" error.
For dispatched kinds the subsystem result is recorded with status
`completed`, any failure populates `error` with status `failed`, and in
every case the executor returns normally instead of raising to the
planner. -/
theorem executeAction_dispatch_contract
    (env : ActionType → Except String String) (a : Action) :
    (dispatchable a.action_type = true ↔
      a.action_type ∈ [ActionType.web_navigate, ActionType.cli_execute,
        ActionType.screenshot, ActionType.vision_analyze,
        ActionType.mouse_click, ActionType.keyboard_type, ActionType.wait,
        ActionType.file_read, ActionType.file_write, ActionType.verify]) ∧
    (∀ r, dispatchable a.action_type = true → env a.action_type = Except.ok r →
      executeAction env a = { a with status := "completed", result := some r }) ∧
    (∀ e, dispatchable a.action_type = true → env a.action_type = Except.error e →
      executeAction env a = { a with status := "failed", error := some e }) ∧
    (dispatchable a.action_type = false →
      executeAction env a = { a with
        status := "failed",
        error := some ("Unsupported action type: " ++ a.action_type.pyName) }) ∧
    ((executeAction env a).status = "completed" ∨
      (executeAction env a).status = "failed") := by
  refine ⟨?_, ?_, ?_, ?_, ?_⟩
  · cases a.action_type <;> simp [dispatchable]
  · intro r hd he
    simp [executeAction, hd, he]
  · intro e hd he
    simp [executeAction, hd, he]
  · intro hd
    simp [executeAction, hd]
  · by_cases hd : dispatchable a.action_type
    · cases he : env a.action_type <;> simp [executeAction, hd, he]
    · simp [executeAction, hd]

open AutonomousEngine in
/-- Concrete witness for `executeAction_dispatch_contract`: a dispatched
`wait` action whose subsystem call succeeds is recorded `completed`. -/
theorem executeAction_dispatch_contract_witness :
    executeAction (fun _ => Except.ok "waited")
        { action_id := "action_1", action_type := ActionType.wait,
          description := "w", status := "pending",
          result := none, error := none } =
      { action_id := "action_1", action_type := ActionType.wait,
        description := "w", status := "completed",
        result := some "waited", error := none } :=
  (executeAction_dispatch_contract (fun _ => Except.ok "waited")
      { action_id := "action_1", action_type := ActionType.wait,
        description := "w", status := "pending",
        result := none, error := none }).2.1 "waited" (by decide) rfl

/-! ## C5: workflow counter and abort invariants -/

namespace AutonomousEngine

theorem execStep_frozen (outcome : Nat → Option String) (recovery : Nat → Bool)
    (i : Nat) (st : WfState) (h : st.status ≠ WorkflowStatus.executing) :
    execStep outcome recovery i st = st := by
  simp [execStep, h]

theorem execActions_frozen (outcome : Nat → Option String)
    (recovery : Nat → Bool) (k : Nat)
    (h : (execActions outcome recovery k).status ≠ WorkflowStatus.executing) :
    ∀ m, k ≤ m → execActions outcome recovery m = execActions outcome recovery k := by
  intro m hk
  induction m with
  | zero =>
      have hzero : k = 0 := Nat.le_zero.mp hk
      subst hzero
      rfl
  | succ n ih =>
      rcases Nat.eq_or_lt_of_le hk with heq | hlt
      · rw [heq]
      · have hn : k ≤ n := Nat.lt_succ_iff.mp hlt
        have hrec := ih hn
        show execStep outcome recovery n (execActions outcome recovery n) =
          execActions outcome recovery k
        rw [hrec]
        exact execStep_frozen outcome recovery n _ h

theorem execActions_succ (outcome : Nat → Option String)
    (recovery : Nat → Bool) (n : Nat) :
    execActions outcome recovery (n + 1) =
      execStep outcome recovery n (execActions outcome recovery n) := rfl

theorem execActions_counters (outcome : Nat → Option String)
    (recovery : Nat → Bool) (k : Nat) :
    (execActions outcome recovery k).completed_actions +
        (execActions outcome recovery k).failed_actions =
      (execActions outcome recovery k).executed ∧
    (execActions outcome recovery k).executed ≤ k := by
  induction k with
  | zero => exact ⟨rfl, Nat.le_refl 0⟩
  | succ n ih =>
      obtain ⟨ihsum, ihle⟩ := ih
      rw [execActions_succ]
      by_cases h : (execActions outcome recovery n).status = WorkflowStatus.executing
      · cases ho : outcome n with
        | none =>
            simp only [execStep, h, if_true, ho]
            omega
        | some e =>
            by_cases hr : recovery n
            · simp [execStep, h, ho, hr]
              omega
            · simp [execStep, h, ho, hr]
              omega
      · rw [execStep_frozen outcome recovery n _ h]
        exact ⟨ihsum, Nat.le_succ_of_le ihle⟩

theorem execActions_status_cases (outcome : Nat → Option String)
    (recovery : Nat → Bool) (k : Nat) :
    (execActions outcome recovery k).status = WorkflowStatus.executing ∨
      (execActions outcome recovery k).status = WorkflowStatus.failed := by
  induction k with
  | zero => exact Or.inl rfl
  | succ n ih =>
      rw [execActions_succ]
      by_cases h : (execActions outcome recovery n).status = WorkflowStatus.executing
      · cases ho : outcome n with
        | none =>
            left
            simp [execStep, h, ho]
        | some e =>
            by_cases hr : recovery n
            · left
              simp [execStep, h, ho, hr]
            · right
              simp [execStep, h, ho, hr]
      · rw [execStep_frozen outcome recovery n _ h]
        exact ih

theorem execStep_fail_abort (outcome : Nat → Option String)
    (recovery : Nat → Bool) (i : Nat) (e : String)
    (h : (execActions outcome recovery i).status = WorkflowStatus.executing)
    (ho : outcome i = some e) (hr : recovery i = false) :
    (execActions outcome recovery (i + 1)).status = WorkflowStatus.failed ∧
    (execActions outcome recovery (i + 1)).executed =
      (execActions outcome recovery i).executed + 1 := by
  rw [execActions_succ]
  refine ⟨?_, ?_⟩ <;> simp [execStep, h, ho, hr]

end AutonomousEngine

open AutonomousEngine in
/-- Claim C5: throughout the execution loop, `completed_actions +
failed_actions` never exceeds the number `n` of planned actions; a workflow
finishing `completed` has `failed_actions = 0` or every failed action's
recovery succeeded; and if the recovery of a failed action fails, the
workflow transitions to `failed` and no further planned action is
executed. -/
theorem workflow_execution_invariants (outcome : Nat → Option String)
    (recovery : Nat → Bool) (n : Nat) :
    (∀ k, k ≤ n →
      (execActions outcome recovery k).completed_actions +
        (execActions outcome recovery k).failed_actions ≤ n) ∧
    ((runWorkflowPhase outcome recovery n).status = WorkflowStatus.completed →
      (runWorkflowPhase outcome recovery n).failed_actions = 0 ∨
        ∀ i, i < n → (outcome i).isSome → recovery i = true) ∧
    (∀ i e, i < n →
      (execActions outcome recovery i).status = WorkflowStatus.executing →
      outcome i = some e → recovery i = false →
      (runWorkflowPhase outcome recovery n).status = WorkflowStatus.failed ∧
      (execActions outcome recovery n).executed =
        (execActions outcome recovery i).executed + 1) := by
  refine ⟨?_, ?_, ?_⟩
  · intro k hk
    obtain ⟨hsum, hle⟩ := execActions_counters outcome recovery k
    omega
  · intro hdone
    right
    intro i hi hsome
    obtain ⟨e, he⟩ := Option.isSome_iff_exists.mp hsome
    have hexecN : (execActions outcome recovery n).status = WorkflowStatus.executing := by
      rcases execActions_status_cases outcome recovery n with hst | hst
      · exact hst
      · exfalso
        have hfailed : (runWorkflowPhase outcome recovery n).status =
            WorkflowStatus.failed := by
          simp [runWorkflowPhase, hst]
        exact WorkflowStatus.noConfusion (hdone.symm.trans hfailed)
    by_cases hr : recovery i
    · exact hr
    · exfalso
      have hrf : recovery i = false := by
        cases hval : recovery i
        · rfl
        · exact absurd hval hr
      have hexecI : (execActions outcome recovery i).status =
          WorkflowStatus.executing := by
        rcases execActions_status_cases outcome recovery i with hst | hst
        · exact hst
        · exfalso
          have hne : (execActions outcome recovery i).status ≠
              WorkflowStatus.executing := by
            rw [hst]
            exact fun hcontra => WorkflowStatus.noConfusion hcontra
          have hfroz := execActions_frozen outcome recovery i hne n (Nat.le_of_lt hi)
          rw [hfroz, hst] at hexecN
          exact WorkflowStatus.noConfusion hexecN
      obtain ⟨hfail, _⟩ := execStep_fail_abort outcome recovery i e hexecI he hrf
      have hne2 : (execActions outcome recovery (i + 1)).status ≠
          WorkflowStatus.executing := by
        rw [hfail]
        exact fun hcontra => WorkflowStatus.noConfusion hcontra
      have hfroz2 := execActions_frozen outcome recovery (i + 1) hne2 n hi
      rw [hfroz2, hfail] at hexecN
      exact WorkflowStatus.noConfusion hexecN
  · intro i e hi hexec ho hr
    obtain ⟨hfail, hcount⟩ := execStep_fail_abort outcome recovery i e hexec ho hr
    have hne2 : (execActions outcome recovery (i + 1)).status ≠
        WorkflowStatus.executing := by
      rw [hfail]
      exact fun hcontra => WorkflowStatus.noConfusion hcontra
    have hfroz2 := execActions_frozen outcome recovery (i + 1) hne2 n hi
    constructor
    · have hstatusN : (execActions outcome recovery n).status =
          WorkflowStatus.failed := by
        rw [hfroz2]
        exact hfail
      simp [runWorkflowPhase, hstatusN]
    · rw [hfroz2]
      exact hcount

/-! ## C3: router fallback chain -/

namespace LLMOrchestrator

theorem fallbackLoop_success (env : LLMProvider → Except String CallResult)
    (failed : LLMProvider) (errMsg : String) :
    ∀ l : List LLMProvider,
      (∃ q, q ∈ l ∧ q ≠ failed ∧ exceptIsOk (env q) = true) →
      (fallbackLoop env failed errMsg l).fallback_from = some failed ∧
      (fallbackLoop env failed errMsg l).original_error = some errMsg := by
  intro l
  induction l with
  | nil =>
      rintro ⟨q, hq, -, -⟩
      exact absurd hq (List.not_mem_nil q)
  | cons p rest ih =>
      rintro ⟨q, hq, hqne, hqok⟩
      by_cases hp : p = failed
      · subst hp
        have hqrest : q ∈ rest := by
          rcases List.mem_cons.mp hq with h | h
          · exact absurd h hqne
          · exact h
        simp only [fallbackLoop, if_pos rfl]
        exact ih ⟨q, hqrest, hqne, hqok⟩
      · cases he : env p with
        | ok r =>
            simp [fallbackLoop, hp, he]
        | error msg =>
            have hqrest : q ∈ rest := by
              rcases List.mem_cons.mp hq with h | h
              · subst h
                rw [he] at hqok
                exact absurd hqok (by simp [exceptIsOk])
              · exact h
            simp only [fallbackLoop, if_neg hp, he]
            exact ih ⟨q, hqrest, hqne, hqok⟩

theorem fallbackLoop_allFail (env : LLMProvider → Except String CallResult)
    (failed : LLMProvider) (errMsg : String) :
    ∀ l : List LLMProvider,
      (∀ q, q ∈ l → q ≠ failed → exceptIsOk (env q) = false) →
      fallbackLoop env failed errMsg l = errorResponse failed errMsg := by
  intro l
  induction l with
  | nil => intro _; rfl
  | cons p rest ih =>
      intro h
      by_cases hp : p = failed
      · subst hp
        simp only [fallbackLoop, if_pos rfl]
        exact ih (fun q hq hqne => h q (List.mem_cons_of_mem _ hq) hqne)
      · cases he : env p with
        | ok r =>
            exfalso
            have := h p (List.mem_cons_self p rest) hp
            rw [he] at this
            simp [exceptIsOk] at this
        | error msg =>
            simp only [fallbackLoop, if_neg hp, he]
            exact ih (fun q hq hqne => h q (List.mem_cons_of_mem _ hq) hqne)

end LLMOrchestrator

open LLMOrchestrator in
/-- Claim C3: when the selected provider's call fails, `generate` increments
that provider's request and error counters, then walks the fixed fallback
chain skipping the failed provider; if some other chain provider succeeds,
the returned response carries `fallback_from = <original provider>` and the
original error; if every chain provider fails, the response has a populated
`error` and empty text — and `generate` returns instead of raising. -/
theorem generate_fallback_contract
    (env : LLMProvider → Except String CallResult)
    (stats : LLMProvider → LLMStats) (preferred : Option LLMProvider)
    (taskType : Option TaskType) (maxCost maxLat : Option ℚ) (elapsed : ℚ)
    (p : LLMProvider) (e : String)
    (hp : selectProvider stats preferred taskType maxCost maxLat = p)
    (hfail : env p = Except.error e) :
    ((generate env stats preferred taskType maxCost maxLat elapsed).1 p).error_count =
        (stats p).error_count + 1 ∧
    ((generate env stats preferred taskType maxCost maxLat elapsed).1 p).total_requests =
        (stats p).total_requests + 1 ∧
    ((∃ q, q ∈ FALLBACK_ORDER ∧ q ≠ p ∧ exceptIsOk (env q) = true) →
      (generate env stats preferred taskType maxCost maxLat elapsed).2.fallback_from =
          some p ∧
      (generate env stats preferred taskType maxCost maxLat elapsed).2.original_error =
          some e) ∧
    ((∀ q, q ∈ FALLBACK_ORDER → q ≠ p → exceptIsOk (env q) = false) →
      (generate env stats preferred taskType maxCost maxLat elapsed).2.error =
          some ("All LLMs failed. Last error: " ++ e) ∧
      (generate env stats preferred taskType maxCost maxLat elapsed).2.response = "") := by
  have hgen : generate env stats preferred taskType maxCost maxLat elapsed =
      (updateStatsError stats p, tryFallback env p e) := by
    simp only [generate, hp, hfail]
  refine ⟨?_, ?_, ?_, ?_⟩
  · rw [hgen]
    simp [updateStatsError]
  · rw [hgen]
    simp [updateStatsError]
  · intro hex
    rw [hgen]
    exact fallbackLoop_success env p e FALLBACK_ORDER hex
  · intro hall
    rw [hgen]
    have := fallbackLoop_allFail env p e FALLBACK_ORDER hall
    unfold tryFallback
    rw [this]
    exact ⟨rfl, rfl⟩

open LLMOrchestrator in
/-- Concrete witness for `generate_fallback_contract`: the preferred
provider fails, the second chain provider answers, and the response is
annotated with the original provider while its error counter grows. -/
theorem generate_fallback_contract_witness :
    ((generate
        (fun q => if q = LLMProvider.gpt4_turbo
          then Except.ok ⟨"4", 1, 1, 0, 0⟩ else Except.error "down")
        (fun _ => statsZero) (some LLMProvider.claude_sonnet)
        none none none 0).1 LLMProvider.claude_sonnet).error_count = 1 ∧
    (generate
        (fun q => if q = LLMProvider.gpt4_turbo
          then Except.ok ⟨"4", 1, 1, 0, 0⟩ else Except.error "down")
        (fun _ => statsZero) (some LLMProvider.claude_sonnet)
        none none none 0).2.fallback_from = some LLMProvider.claude_sonnet := by
  have h := generate_fallback_contract
    (fun q => if q = LLMProvider.gpt4_turbo
      then Except.ok ⟨"4", 1, 1, 0, 0⟩ else Except.error "down")
    (fun _ => statsZero) (some LLMProvider.claude_sonnet)
    none none none 0 LLMProvider.claude_sonnet "down" rfl rfl
  refine ⟨?_, ?_⟩
  · have h1 := h.1
    rw [h1]
    decide
  · exact (h.2.2.1 ⟨LLMProvider.gpt4_turbo, by decide, by decide, by decide⟩).1

/-! ## C4: provider selection and the error-rate skip rule -/

open LLMOrchestrator in
/-- Claim C4 counterexample: the first preferred provider for `reasoning`
(`CLAUDE_OPUS`) has exactly 10 recorded requests, all failed — an error
rate of 1.0 over at least 10 requests — yet `_select_llm_for_task` still
returns it, because the code only applies the skip rule for strictly more
than 10 requests. -/
theorem selectLLM_exactly_ten_counterexample :
    selectLLMForTask
        (fun p => if p = LLMProvider.claude_opus
          then { statsZero with total_requests := 10, error_count := 10 }
          else statsZero)
        TaskType.reasoning none none = LLMProvider.claude_opus ∧
    ((fun p => if p = LLMProvider.claude_opus
          then { statsZero with total_requests := 10, error_count := 10 }
          else statsZero) LLMProvider.claude_opus).total_requests = 10 ∧
    (((fun p => if p = LLMProvider.claude_opus
          then { statsZero with total_requests := 10, error_count := 10 }
          else statsZero) LLMProvider.claude_opus).error_count : ℚ) /
        (((fun p => if p = LLMProvider.claude_opus
          then { statsZero with total_requests := 10, error_count := 10 }
          else statsZero) LLMProvider.claude_opus).total_requests : ℚ) > 1 / 2 := by
  refine ⟨?_, by decide, by norm_num [statsZero]⟩
  decide

open LLMOrchestrator in
/-- Claim C4 (amended): with no cost or latency ceiling, provider selection
walks the static preference list of the task class in order and skips
exactly the providers whose error rate over strictly more than 10 recorded
requests exceeds 0.5, returning the first survivor; when every preferred
provider is skipped it returns the free local provider `OLLAMA_LLAMA`.
Stated as equality with the spec-side reformulation `selectSpec`. -/
theorem selectLLM_matches_spec (stats : LLMProvider → LLMStats) (t : TaskType) :
    selectLLMForTask stats t none none = selectSpec stats t := by
  unfold selectLLMForTask selectSpec
  induction taskPreferences t with
  | nil => rfl
  | cons p rest ih =>
      by_cases h : errorRateHigh (stats p)
      · simp only [selectLoop]
        rw [if_neg (fun hx => Bool.noConfusion hx.1),
          if_neg (fun hx => Bool.noConfusion hx.1), if_pos h,
          List.filter_cons, if_neg (by simp [decide_eq_true h])]
        exact ih
      · simp only [selectLoop]
        rw [if_neg (fun hx => Bool.noConfusion hx.1),
          if_neg (fun hx => Bool.noConfusion hx.1), if_neg h,
          List.filter_cons, if_pos (by simp [decide_eq_false h]), List.headD_cons]

/-! ## C6: CLI task lifecycle -/

open CLIAgent in
/-- Claim C6 counterexample: a subprocess that exits non-zero with empty
stderr produces the error text "Exit code 1", not the (empty) stderr, so
"stderr as the error text" fails on this input. -/
theorem cliTask_empty_stderr_counterexample :
    (executeTask (mkTask "t1" AgentType.claude "p" 300 0)
        (SubprocOutcome.exited 1 [] []) 1 2).1.error = some "Exit code 1" ∧
    joinLines [] = "" ∧
    (executeTask (mkTask "t1" AgentType.claude "p" 300 0)
        (SubprocOutcome.exited 1 [] []) 1 2).1.error ≠ some (joinLines []) := by
  refine ⟨rfl, rfl, by decide⟩

open CLIAgent in
/-- Claim C6 (amended): every CLI task transitions queued → running →
terminal with terminal ∈ {completed, error, timeout} and `finished_at ≥
started_at ≥ created_at` under a monotone wall clock; on subprocess timeout
the child is killed and status becomes `timeout`; on clean exit status
becomes `completed` with the joined stdout as result; on non-zero exit
status becomes `error` with the joined stderr as the error text when
stderr is non-empty, and "Exit code <code>" otherwise. -/
theorem cliTask_lifecycle (clock : Nat → Nat) (hm : Monotone clock)
    (id prompt : String) (agent : AgentType) (timeout : Nat)
    (outcome : SubprocOutcome) :
    (mkTask id agent prompt timeout (clock 0)).status = "queued" ∧
    (markRunning (mkTask id agent prompt timeout (clock 0)) (clock 1)).status =
      "running" ∧
    ((executeTask (mkTask id agent prompt timeout (clock 0)) outcome
        (clock 1) (clock 2)).1.status = "completed" ∨
      (executeTask (mkTask id agent prompt timeout (clock 0)) outcome
        (clock 1) (clock 2)).1.status = "error" ∨
      (executeTask (mkTask id agent prompt timeout (clock 0)) outcome
        (clock 1) (clock 2)).1.status = "timeout") ∧
    (executeTask (mkTask id agent prompt timeout (clock 0)) outcome
        (clock 1) (clock 2)).1.created_at = clock 0 ∧
    (executeTask (mkTask id agent prompt timeout (clock 0)) outcome
        (clock 1) (clock 2)).1.started_at = some (clock 1) ∧
    (executeTask (mkTask id agent prompt timeout (clock 0)) outcome
        (clock 1) (clock 2)).1.finished_at = some (clock 2) ∧
    clock 0 ≤ clock 1 ∧ clock 1 ≤ clock 2 ∧
    (outcome = SubprocOutcome.timedOut →
      (executeTask (mkTask id agent prompt timeout (clock 0)) outcome
          (clock 1) (clock 2)).1.status = "timeout" ∧
      (executeTask (mkTask id agent prompt timeout (clock 0)) outcome
          (clock 1) (clock 2)).2 = true) ∧
    (∀ out errls, outcome = SubprocOutcome.exited 0 out errls →
      (executeTask (mkTask id agent prompt timeout (clock 0)) outcome
          (clock 1) (clock 2)).1.status = "completed" ∧
      (executeTask (mkTask id agent prompt timeout (clock 0)) outcome
          (clock 1) (clock 2)).1.result = some (joinLines out)) ∧
    (∀ code out errls, outcome = SubprocOutcome.exited code out errls →
      code ≠ 0 →
      (executeTask (mkTask id agent prompt timeout (clock 0)) outcome
          (clock 1) (clock 2)).1.status = "error" ∧
      (executeTask (mkTask id agent prompt timeout (clock 0)) outcome
          (clock 1) (clock 2)).1.error =
        some (if joinLines errls = "" then "Exit code " ++ toString code
          else joinLines errls)) := by
  refine ⟨rfl, rfl, ?_, ?_, ?_, ?_, hm (by norm_num), hm (by norm_num),
    ?_, ?_, ?_⟩
  · cases outcome with
    | spawnNotFound => right; left; rfl
    | timedOut => right; right; rfl
    | exited code out errls =>
        by_cases hc : code = 0
        · left
          simp [executeTask, finishTask, markRunning, hc]
        · right; left
          simp [executeTask, finishTask, markRunning, hc]
  · cases outcome with
    | spawnNotFound => rfl
    | timedOut => rfl
    | exited code out errls =>
        by_cases hc : code = 0 <;>
          simp [executeTask, finishTask, markRunning, mkTask, hc]
  · cases outcome with
    | spawnNotFound => rfl
    | timedOut => rfl
    | exited code out errls =>
        by_cases hc : code = 0 <;>
          simp [executeTask, finishTask, markRunning, mkTask, hc]
  · cases outcome with
    | spawnNotFound => rfl
    | timedOut => rfl
    | exited code out errls =>
        by_cases hc : code = 0 <;>
          simp [executeTask, finishTask, markRunning, mkTask, hc]
  · intro h
    subst h
    exact ⟨rfl, rfl⟩
  · intro out errls h
    subst h
    exact ⟨rfl, rfl⟩
  · intro code out errls h hc
    subst h
    refine ⟨?_, ?_⟩ <;> simp [executeTask, finishTask, markRunning, hc]

open CLIAgent in
/-- Concrete witness for `cliTask_lifecycle`: identity clock, clean exit. -/
theorem cliTask_lifecycle_witness :
    (executeTask (mkTask "t1" AgentType.claude "p" 300 0)
        (SubprocOutcome.exited 0 ["hi"] []) 1 2).1.status = "completed" ∧
    (executeTask (mkTask "t1" AgentType.claude "p" 300 0)
        (SubprocOutcome.exited 0 ["hi"] []) 1 2).1.result = some (joinLines ["hi"]) :=
  (cliTask_lifecycle (fun n => n) (fun _ _ hab => hab) "t1" "p"
      AgentType.claude 300 (SubprocOutcome.exited 0 ["hi"] [])).2.2.2.2.2.2.2.2.2.1
    ["hi"] [] rfl

/-! ## C9: broker retention -/

theorem lastN_lastN_append (n : Nat) (a b : List α) :
    lastN n (lastN n a ++ b) = lastN n (a ++ b) := by
  unfold lastN
  by_cases h : a.length ≤ n
  · have hk : a.length - n = 0 := by omega
    rw [hk, List.drop_zero]
  · have hk : a.length - n ≤ a.length := Nat.sub_le _ _
    rw [← List.drop_append_of_le_length hk, List.drop_drop]
    congr 1
    rw [List.length_drop, List.length_append]
    omega

theorem pushBounded_eq_lastN (n : Nat) (xs : List α) (x : α) :
    pushBounded n xs x = lastN n (xs ++ [x]) := rfl

theorem pushBounded_length_le (n : Nat) (xs : List α) (x : α) (hn : 1 ≤ n) :
    (pushBounded n xs x).length ≤ n := by
  simp only [pushBounded, List.length_drop, List.length_append,
    List.length_cons, List.length_nil]
  omega

theorem foldl_pushBounded (n : Nat) (ids : List α) :
    ∀ acc : List α, acc.length ≤ n →
      List.foldl (pushBounded n) acc ids = lastN n (acc ++ ids) := by
  induction ids with
  | nil =>
      intro acc h
      simp only [List.foldl_nil, List.append_nil, lastN]
      have : acc.length - n = 0 := by omega
      rw [this, List.drop_zero]
  | cons x rest ih =>
      intro acc h
      by_cases hn : 1 ≤ n
      · have hlen := pushBounded_length_le n acc x hn
        calc List.foldl (pushBounded n) acc (x :: rest)
            = List.foldl (pushBounded n) (pushBounded n acc x) rest := rfl
          _ = lastN n (pushBounded n acc x ++ rest) := ih _ hlen
          _ = lastN n (lastN n (acc ++ [x]) ++ rest) := by
              rw [pushBounded_eq_lastN]
          _ = lastN n ((acc ++ [x]) ++ rest) := lastN_lastN_append n _ _
          _ = lastN n (acc ++ x :: rest) := by
              rw [List.append_assoc]
              rfl
      · have hn0 : n = 0 := by omega
        subst hn0
        have hacc : acc = [] := List.length_eq_zero.mp (by omega)
        subst hacc
        have hall : ∀ l : List α, ∀ a : List α, a = [] →
            List.foldl (pushBounded 0) a l = [] := by
          intro l
          induction l with
          | nil => intro a ha; simpa using ha
          | cons y ys ihy =>
              intro a ha
              subst ha
              exact ihy (pushBounded 0 [] y) (by simp [pushBounded])
        rw [hall (x :: rest) [] rfl]
        simp [lastN]

namespace CLIAgent

theorem assocLookup_isSome_insert (key id : String) (v : α)
    (l : List (String × α)) (h : (assocLookup id l).isSome = true ∨ id = key) :
    (assocLookup id (assocInsert key v l)).isSome = true := by
  by_cases hid : id = key
  · subst hid
    rw [assocLookup_insert]
    rfl
  · rcases h with h | h
    · rw [assocLookup_insert_ne key id v (fun hx => hid hx.symm)]
      exact h
    · exact absurd h hid

theorem submitAll_history_evolution (ids : List String) :
    ∀ st : BrokerState,
      (List.foldl (fun st id => (submitTask st id AgentType.claude "p" none 0).1)
          st ids).history =
        List.foldl (pushBounded HISTORY_MAX) st.history ids := by
  induction ids with
  | nil => intro st; rfl
  | cons x rest ih =>
      intro st
      exact ih _

theorem submitAll_retains_tasks (ids : List String) :
    ∀ st : BrokerState, ∀ id : String,
      ((assocLookup id st.tasks).isSome = true ∨ id ∈ ids) →
      (assocLookup id
        (List.foldl (fun st id => (submitTask st id AgentType.claude "p" none 0).1)
          st ids).tasks).isSome = true := by
  induction ids with
  | nil =>
      intro st id h
      rcases h with h | h
      · exact h
      · exact absurd h (List.not_mem_nil id)
  | cons x rest ih =>
      intro st id h
      apply ih ((submitTask st x AgentType.claude "p" none 0).1) id
      rcases h with h | h
      · left
        exact assocLookup_isSome_insert x id _ st.tasks (Or.inl h)
      · rcases List.mem_cons.mp h with h | h
        · left
          exact assocLookup_isSome_insert x id _ st.tasks (Or.inr h)
        · right
          exact h

end CLIAgent

open CLIAgent in
/-- Claim C9 counterexample: after 21 submissions the oldest id has fallen
out of the 20-slot history ring, yet `get_task` still returns its task —
the task dict is never pruned, so the status query does not answer
"unknown task". -/
theorem broker_old_id_counterexample :
    (getTask (submitAll ["t00", "t01", "t02", "t03", "t04", "t05", "t06",
        "t07", "t08", "t09", "t10", "t11", "t12", "t13", "t14", "t15",
        "t16", "t17", "t18", "t19", "t20"]) "t00").isSome = true ∧
    "t00" ∉ (submitAll ["t00", "t01", "t02", "t03", "t04", "t05", "t06",
        "t07", "t08", "t09", "t10", "t11", "t12", "t13", "t14", "t15",
        "t16", "t17", "t18", "t19", "t20"]).history := by
  exact ⟨by decide, by decide⟩

open CLIAgent in
/-- Claim C9 (amended): the history ring retains exactly the most recent 20
submitted ids (bounding `list_tasks`), but the task dict is never pruned:
`get_task` returns the in-memory task for every id ever submitted, however
old. -/
theorem broker_retention (ids : List String) :
    (∀ id, id ∈ ids → (getTask (submitAll ids) id).isSome = true) ∧
    (submitAll ids).history = lastN HISTORY_MAX ids ∧
    (submitAll ids).history.length ≤ HISTORY_MAX ∧
    (listTasks (submitAll ids)).length ≤ HISTORY_MAX := by
  have hhist : (submitAll ids).history = lastN HISTORY_MAX ids := by
    show (List.foldl (fun st id =>
        (submitTask st id AgentType.claude "p" none 0).1) ⟨[], []⟩ ids).history =
      lastN HISTORY_MAX ids
    rw [submitAll_history_evolution ids ⟨[], []⟩]
    have h0 : ([] : List String).length ≤ HISTORY_MAX := by
      simp [HISTORY_MAX]
    rw [foldl_pushBounded HISTORY_MAX ids [] h0]
    rfl
  have hlen : (submitAll ids).history.length ≤ HISTORY_MAX := by
    rw [hhist]
    unfold lastN
    rw [List.length_drop]
    omega
  refine ⟨?_, hhist, hlen, ?_⟩
  · intro id hid
    exact submitAll_retains_tasks ids ⟨[], []⟩ id (Or.inr hid)
  · calc (listTasks (submitAll ids)).length
        ≤ (submitAll ids).history.length := List.length_filterMap_le _ _
      _ ≤ HISTORY_MAX := hlen

open CLIAgent in
/-- Concrete witness for `broker_retention`. -/
theorem broker_retention_witness :
    (getTask (submitAll ["a", "b"]) "a").isSome = true :=
  (broker_retention ["a", "b"]).1 "a" (by decide)

/-! ## C8 and C10: cache tiers -/

theorem entriesLookup_replace_self (key : String) (entry : MemEntry)
    (hkey : entry.key = key) :
    ∀ l : List MemEntry, entriesContains key l = true →
      entriesLookup key (entriesReplace key entry l) = some entry := by
  intro l
  induction l with
  | nil => intro h; simp [entriesContains] at h
  | cons e rest ih =>
      intro h
      by_cases he : e.key = key
      · simp [entriesReplace, he, entriesLookup, hkey]
      · have hrest : entriesContains key rest = true := by
          simpa [entriesContains, he] using h
        simp [entriesReplace, he, entriesLookup, ih hrest]

theorem entriesLookup_append_new (key : String) (entry : MemEntry)
    (hkey : entry.key = key) :
    ∀ l : List MemEntry, entriesContains key l = false →
      entriesLookup key (l ++ [entry]) = some entry := by
  intro l
  induction l with
  | nil => intro _; simp [entriesLookup, hkey]
  | cons e rest ih =>
      intro h
      simp only [entriesContains, Bool.or_eq_false_iff] at h
      obtain ⟨he, hrest⟩ := h
      have hene : ¬(e.key = key) := by
        intro hx
        simp [hx] at he
      simp only [List.cons_append, entriesLookup]
      rw [if_neg hene]
      exact ih hrest

theorem memGet_after_set (sz : PyVal → Nat) (mc : MemoryCache) (key : String)
    (v : PyVal) (now : Nat) (ttl : Option Nat) :
    (MemoryCache.get (MemoryCache.set sz mc key v now ttl) key).1 = v := by
  unfold MemoryCache.set
  dsimp only
  rcases evictLoop mc.max_size_bytes (sz v) mc.cache mc.current_size_bytes
      mc.evictions with ⟨cache1, cur1, ev1⟩
  dsimp only
  by_cases hC : entriesContains key cache1 = true
  · simp only [hC, if_true]
    unfold MemoryCache.get
    rw [entriesLookup_replace_self key _ rfl cache1 hC]
  · simp only [hC, if_false, Bool.false_eq_true]
    unfold MemoryCache.get
    rw [entriesLookup_append_new key _ rfl cache1 (by
      cases hx : entriesContains key cache1
      · rfl
      · exact absurd hx hC)]

theorem cacheGet_memory_hit (sz : PyVal → Nat) (now : Nat) (cm : CacheManager)
    (ns key : String) (v1 : PyVal) (mem1 : MemoryCache)
    (hg : MemoryCache.get cm.memory (generateKey ns key) = (v1, mem1))
    (hv : v1 ≠ PyVal.vnone) :
    CacheManager.get sz now cm ns key =
      ((v1, "memory"), { cm with memory := mem1 }) := by
  unfold CacheManager.get
  dsimp only
  rw [hg]
  simp [hv]

theorem cacheGet_disk_hit (sz : PyVal → Nat) (now : Nat) (cm : CacheManager)
    (ns key : String) (mem1 : MemoryCache)
    (hg : MemoryCache.get cm.memory (generateKey ns key) = (PyVal.vnone, mem1))
    (hd : kvGet cm.disk (generateKey ns key) ≠ PyVal.vnone) :
    CacheManager.get sz now cm ns key =
      ((kvGet cm.disk (generateKey ns key), "disk"),
        { cm with memory := (MemoryCache.set sz mem1 (generateKey ns key)
            (kvGet cm.disk (generateKey ns key)) now none) }) := by
  unfold CacheManager.get
  dsimp only
  rw [hg]
  simp [hd]

theorem cacheGet_redis_hit (sz : PyVal → Nat) (now : Nat) (cm : CacheManager)
    (ns key : String) (mem1 : MemoryCache)
    (hg : MemoryCache.get cm.memory (generateKey ns key) = (PyVal.vnone, mem1))
    (hd : kvGet cm.disk (generateKey ns key) = PyVal.vnone)
    (hr : kvGet cm.redis (generateKey ns key) ≠ PyVal.vnone) :
    CacheManager.get sz now cm ns key =
      ((kvGet cm.redis (generateKey ns key), "redis"),
        { cm with
            memory := (MemoryCache.set sz mem1 (generateKey ns key)
              (kvGet cm.redis (generateKey ns key)) now none),
            disk := (kvSet cm.disk (generateKey ns key)
              (kvGet cm.redis (generateKey ns key))) }) := by
  unfold CacheManager.get
  dsimp only
  rw [hg]
  simp [hd, hr]

theorem cacheGet_miss (sz : PyVal → Nat) (now : Nat) (cm : CacheManager)
    (ns key : String) (mem1 : MemoryCache)
    (hg : MemoryCache.get cm.memory (generateKey ns key) = (PyVal.vnone, mem1))
    (hd : kvGet cm.disk (generateKey ns key) = PyVal.vnone)
    (hr : kvGet cm.redis (generateKey ns key) = PyVal.vnone) :
    CacheManager.get sz now cm ns key =
      ((PyVal.vnone, "miss"), { cm with memory := mem1 }) := by
  unfold CacheManager.get
  dsimp only
  rw [hg]
  simp [hd, hr]

theorem cacheSet_default_memory (sz : PyVal → Nat) (now : Nat)
    (cm : CacheManager) (ns key : String) (v : PyVal) (ttl : Option Nat) :
    (CacheManager.set sz now cm ns key v ttl none).memory =
      MemoryCache.set sz cm.memory (generateKey ns key) v now ttl := by
  rfl

open PyVal in
/-- Claim C8 counterexample: storing Python `None` in all tiers is
indistinguishable from absence — the immediate `get` answers
`(None, 'miss')`, not `(None, 'memory')`. -/
theorem cache_none_value_counterexample :
    (CacheManager.get (fun _ => 1) 0
        (CacheManager.set (fun _ => 1) 0
          ⟨⟨[], 1024, 0, 0, 0, 0⟩, ⟨true, []⟩, ⟨true, []⟩⟩
          "ns" "k" PyVal.vnone none none)
        "ns" "k").1 = (PyVal.vnone, "miss") ∧
    (PyVal.vnone, "miss") ≠ ((PyVal.vnone, "memory") : PyVal × String) := by
  exact ⟨by decide, by decide⟩

/-- Claim C8 (amended): for every value other than Python `None`, a
`set(ns, k, v)` to the default (all) tiers followed by an immediate
`get(ns, k)` yields `(v, 'memory')`; and a `get` that hits the disk or
redis tier writes the value back into every higher tier before returning,
so an immediate subsequent `get` of the same key yields the same value
from the memory tier. -/
theorem cache_set_get_promotion (sz : PyVal → Nat) (now1 now2 : Nat)
    (cm : CacheManager) (ns key : String) (v : PyVal) (ttl : Option Nat)
    (hv : v ≠ PyVal.vnone) :
    (CacheManager.get sz now2 (CacheManager.set sz now1 cm ns key v ttl none)
        ns key).1 = (v, "memory") ∧
    (∀ v2 cm2, CacheManager.get sz now1 cm ns key = ((v2, "disk"), cm2) →
      (CacheManager.get sz now2 cm2 ns key).1 = (v2, "memory")) ∧
    (∀ v2 cm2, CacheManager.get sz now1 cm ns key = ((v2, "redis"), cm2) →
      (CacheManager.get sz now2 cm2 ns key).1 = (v2, "memory")) := by
  have hpromote : ∀ mem1 v2 now3, v2 ≠ PyVal.vnone →
      ∀ cm2 : CacheManager,
        cm2.memory = MemoryCache.set sz mem1 (generateKey ns key) v2 now3 none →
        (CacheManager.get sz now2 cm2 ns key).1 = (v2, "memory") := by
    intro mem1 v2 now3 hv2 cm2 hcm2
    rcases hg2 : MemoryCache.get cm2.memory (generateKey ns key) with ⟨w, mem2⟩
    have hw : w = v2 := by
      have := memGet_after_set sz mem1 (generateKey ns key) v2 now3 none
      rw [← hcm2, hg2] at this
      exact this
    subst hw
    rw [cacheGet_memory_hit sz now2 cm2 ns key w mem2 hg2 (by
      intro hx
      exact hv2 hx)]
  refine ⟨?_, ?_, ?_⟩
  · rcases hg : MemoryCache.get
        (CacheManager.set sz now1 cm ns key v ttl none).memory
        (generateKey ns key) with ⟨w, mem2⟩
    have hw : w = v := by
      have := memGet_after_set sz cm.memory (generateKey ns key) v now1 ttl
      rw [← cacheSet_default_memory sz now1 cm ns key v ttl, hg] at this
      exact this
    subst hw
    rw [cacheGet_memory_hit sz now2 _ ns key w mem2 hg (by
      intro hx
      exact hv hx)]
  · intro v2 cm2 heq
    rcases hg : MemoryCache.get cm.memory (generateKey ns key) with ⟨v1, mem1⟩
    by_cases hv1 : v1 = PyVal.vnone
    · subst hv1
      by_cases hd : kvGet cm.disk (generateKey ns key) = PyVal.vnone
      · by_cases hr : kvGet cm.redis (generateKey ns key) = PyVal.vnone
        · rw [cacheGet_miss sz now1 cm ns key mem1 hg hd hr] at heq
          simp at heq
        · rw [cacheGet_redis_hit sz now1 cm ns key mem1 hg hd hr] at heq
          simp at heq
      · rw [cacheGet_disk_hit sz now1 cm ns key mem1 hg hd] at heq
        have hv2 : v2 = kvGet cm.disk (generateKey ns key) := by
          have := congrArg (fun x => x.1.1) heq
          simpa using this.symm
        have hcm2 : cm2 = { cm with
            memory := (MemoryCache.set sz mem1 (generateKey ns key)
              (kvGet cm.disk (generateKey ns key)) now1 none) } := by
          have := congrArg (fun x => x.2) heq
          simpa using this.symm
        subst hv2
        exact hpromote mem1 _ now1 hd cm2 (by rw [hcm2])
    · rw [cacheGet_memory_hit sz now1 cm ns key v1 mem1 hg hv1] at heq
      simp at heq
  · intro v2 cm2 heq
    rcases hg : MemoryCache.get cm.memory (generateKey ns key) with ⟨v1, mem1⟩
    by_cases hv1 : v1 = PyVal.vnone
    · subst hv1
      by_cases hd : kvGet cm.disk (generateKey ns key) = PyVal.vnone
      · by_cases hr : kvGet cm.redis (generateKey ns key) = PyVal.vnone
        · rw [cacheGet_miss sz now1 cm ns key mem1 hg hd hr] at heq
          simp at heq
        · rw [cacheGet_redis_hit sz now1 cm ns key mem1 hg hd hr] at heq
          have hv2 : v2 = kvGet cm.redis (generateKey ns key) := by
            have := congrArg (fun x => x.1.1) heq
            simpa using this.symm
          have hcm2 : cm2 = { cm with
              memory := (MemoryCache.set sz mem1 (generateKey ns key)
                (kvGet cm.redis (generateKey ns key)) now1 none),
              disk := (kvSet cm.disk (generateKey ns key)
                (kvGet cm.redis (generateKey ns key))) } := by
            have := congrArg (fun x => x.2) heq
            simpa using this.symm
          subst hv2
          exact hpromote mem1 _ now1 hr cm2 (by rw [hcm2])
      · rw [cacheGet_disk_hit sz now1 cm ns key mem1 hg hd] at heq
        simp at heq
    · rw [cacheGet_memory_hit sz now1 cm ns key v1 mem1 hg hv1] at heq
      simp at heq

/-- Concrete witness for `cache_set_get_promotion`: a stored integer is
answered from the memory tier. -/
theorem cache_set_get_promotion_witness :
    (CacheManager.get (fun _ => 1) 1
        (CacheManager.set (fun _ => 1) 0
          ⟨⟨[], 1024, 0, 0, 0, 0⟩, ⟨true, []⟩, ⟨true, []⟩⟩
          "ns" "k" (PyVal.vint 7) none none)
        "ns" "k").1 = (PyVal.vint 7, "memory") :=
  (cache_set_get_promotion (fun _ => 1) 0 1
      ⟨⟨[], 1024, 0, 0, 0, 0⟩, ⟨true, []⟩, ⟨true, []⟩⟩
      "ns" "k" (PyVal.vint 7) none (by decide)).1

theorem entriesContains_append (k2 : String) (l1 l2 : List MemEntry) :
    entriesContains k2 (l1 ++ l2) =
      (entriesContains k2 l1 || entriesContains k2 l2) := by
  induction l1 with
  | nil => simp [entriesContains]
  | cons e rest ih =>
      simp [entriesContains, ih, Bool.or_assoc]

theorem entriesContains_remove_or (k k2 : String) :
    ∀ l : List MemEntry, ∀ e : MemEntry, entriesLookup k l = some e →
      (entriesContains k2 (entriesRemove k l) || decide (e.key = k2)) =
        entriesContains k2 l := by
  intro l
  induction l with
  | nil => intro e h; simp [entriesLookup] at h
  | cons c rest ih =>
      intro e h
      by_cases hck : c.key = k
      · have hec : c = e := by
          have hsome : some c = some e := by
            simpa [entriesLookup, hck] using h
          exact Option.some.inj hsome
        subst hec
        have hrm : entriesRemove k (c :: rest) = rest := by
          simp [entriesRemove, hck]
        rw [hrm]
        simp only [entriesContains]
        rw [Bool.or_comm]
      · have hlk : entriesLookup k rest = some e := by
          simpa [entriesLookup, hck] using h
        have hrm : entriesRemove k (c :: rest) = c :: entriesRemove k rest := by
          simp [entriesRemove, hck]
        rw [hrm]
        simp only [entriesContains]
        rw [Bool.or_assoc, ih e hlk]

theorem memGet_preserves_keys (mc : MemoryCache) (k k2 : String) :
    entriesContains k2 ((MemoryCache.get mc k).2.cache) =
      entriesContains k2 mc.cache := by
  unfold MemoryCache.get
  cases hL : entriesLookup k mc.cache with
  | none => rfl
  | some e =>
      simp only []
      rw [entriesContains_append]
      simp only [entriesContains, Bool.or_false]
      exact entriesContains_remove_or k k2 mc.cache e hL

/-- Claim C10: the memory tier records an expiration timestamp
(`now + ttl`) at `set` time but never consults it on `get`: a lookup
performed at any time `t` past the expiry still returns the stored value
(the embedded `get` reads no clock at all), and a `get` never removes an
entry — memory entries disappear only through LRU eviction or explicit
delete, never through TTL expiry. -/
theorem memoryCache_ttl_never_checked (sz : PyVal → Nat) (mc : MemoryCache)
    (key : String) (v : PyVal) (now ttl t : Nat)
    (httl : ttl ≠ 0) (ht : now + ttl < t) :
    (∃ e, entriesLookup key ((MemoryCache.set sz mc key v now (some ttl)).cache) =
        some e ∧ e.value = v ∧ e.timestamp = now + ttl) ∧
    (MemoryCache.get (MemoryCache.set sz mc key v now (some ttl)) key).1 = v ∧
    (∀ mc2 k k2, entriesContains k2 ((MemoryCache.get mc2 k).2.cache) =
      entriesContains k2 mc2.cache) := by
  refine ⟨?_, memGet_after_set sz mc key v now (some ttl), ?_⟩
  · refine ⟨⟨key, v, sz v, now + ttl⟩, ?_, rfl, rfl⟩
    unfold MemoryCache.set
    dsimp only
    rcases evictLoop mc.max_size_bytes (sz v) mc.cache
        mc.current_size_bytes mc.evictions with ⟨cache1, cur1, ev1⟩
    dsimp only
    have hts : (if pyTruthyNat (some ttl) then now + (some ttl).getD 0 else now) =
        now + ttl := by
      simp [pyTruthyNat, httl]
    rw [hts]
    by_cases hC : entriesContains key cache1 = true
    · simp only [hC, if_true]
      exact entriesLookup_replace_self key _ rfl cache1 hC
    · simp only [hC, if_false, Bool.false_eq_true]
      exact entriesLookup_append_new key _ rfl cache1 (by
        cases hx : entriesContains key cache1
        · rfl
        · exact absurd hx hC)
  · intro mc2 k k2
    exact memGet_preserves_keys mc2 k k2

/-- Concrete witness for `memoryCache_ttl_never_checked`: a value stored
with a 5-second TTL is still returned by a lookup modelled at time 100. -/
theorem memoryCache_ttl_never_checked_witness :
    (MemoryCache.get
        (MemoryCache.set (fun _ => 1) ⟨[], 1024, 0, 0, 0, 0⟩ "k"
          (PyVal.vint 7) 0 (some 5)) "k").1 = PyVal.vint 7 :=
  (memoryCache_ttl_never_checked (fun _ => 1) ⟨[], 1024, 0, 0, 0, 0⟩ "k"
      (PyVal.vint 7) 0 5 100 (by decide) (by decide)).2.1

open AutonomousEngine in
/-- Concrete witness for `workflow_execution_invariants`: a two-action plan
whose first action fails without recovery aborts with one executed action. -/
theorem workflow_execution_invariants_witness :
    (runWorkflowPhase (fun _ => some "boom") (fun _ => false) 2).status =
        WorkflowStatus.failed ∧
    (execActions (fun _ => some "boom") (fun _ => false) 2).executed = 1 ∧
    (execActions (fun _ => some "boom") (fun _ => false) 2).completed_actions +
      (execActions (fun _ => some "boom") (fun _ => false) 2).failed_actions ≤ 2 := by
  obtain ⟨ha, _, hc⟩ :=
    workflow_execution_invariants (fun _ => some "boom") (fun _ => false) 2
  obtain ⟨hfailed, hexec⟩ := hc 0 "boom" (by decide) rfl rfl rfl
  exact ⟨hfailed, by rw [hexec]; rfl, ha 2 (Nat.le_refl 2)⟩

end Aurora
